import Mathlib

/-!
Shallow embedding of the `relayer` synchronization engine:
`src/jobs/opensea-sync/utils.ts` (offset-mode sync) and
`src/jobs/seaport-sync/utils.ts` (cursor-mode continuous drain and
bounded window fetch).  External collaborators (HTTP fetch, order
parser, store insert) are passed in as an environment record; each
sync loop is modelled as a fuel-indexed recursion returning `none`
when the fuel runs out (divergence) and otherwise the trace of
observable events (page requests, store inserts, queue enqueues,
rate-limit sleeps) together with the call's outcome.
-/

namespace Relayer

/-- Events observable during one sync invocation.  `α` is the shape of the
request parameters handed to the marketplace HTTP API, `ρ` the row type of
the store batch. -/
inductive SyncEvent (α ρ : Type) where
  | requested (params : α)
  | inserted (rows : List ρ)
  | enqueued (count : Nat)
  | slept (ms : Nat)
  deriving DecidableEq, Repr

/-- Rows of a trace's `inserted` events, in order: the batches this
invocation handed to the store's bulk insert. -/
def insertedBatches {α ρ : Type} : List (SyncEvent α ρ) → List (List ρ)
  | [] => []
  | .inserted rows :: evs => rows :: insertedBatches evs
  | _ :: evs => insertedBatches evs

/-- Parameters of a trace's `requested` events, in order: the page requests
this invocation issued. -/
def requestedParams {α ρ : Type} : List (SyncEvent α ρ) → List α
  | [] => []
  | .requested p :: evs => p :: requestedParams evs
  | _ :: evs => requestedParams evs

/-- Count of `slept` events of a trace. -/
def sleepCount {α ρ : Type} : List (SyncEvent α ρ) → Nat
  | [] => 0
  | .slept _ :: evs => sleepCount evs + 1
  | _ :: evs => sleepCount evs

/-- JS `String.prototype.toLowerCase` as the engine uses it (ASCII
addresses and hashes): lower-case every character. -/
def lowerCase (s : String) : String :=
  ⟨s.data.map Char.toLower⟩

/-- The `getInfo()` payload of a parsed order: its canonical contract
address.  `getInfo()` itself may return nothing, hence the `Option` at the
use sites. -/
structure OrderInfo where
  contract : String
  deriving DecidableEq, Repr

/-- A parsed (normalized) order, as far as the sync engine inspects it:
`getInfo()` either yields the order's contract info or nothing. -/
structure ParsedOrder where
  info : Option OrderInfo
  deriving DecidableEq, Repr

end Relayer

namespace OpenSeaSync

open Relayer

/-- A raw OpenSea wire order, restricted to the fields
`jobs/opensea-sync/utils.ts` reads: the fallback `target`, the
`prefixed_hash` identifier, the maker's address and the creation date. -/
structure OpenSeaOrder where
  target : String
  prefixed_hash : String
  maker_address : String
  created_date : String
  deriving DecidableEq, Repr

/-- A stored order row as built by `handleOrder` in
`jobs/opensea-sync/utils.ts` (the heavy `data` payload is dropped from the
model; it is never inspected by the engine). -/
structure StoredOrderRow where
  hash : String
  target : String
  maker : String
  created_at : String
  delayed : Bool
  source : String
  deriving DecidableEq, Repr

/-- Arguments of `buildFetchOrdersURL` as assembled at lines 28-35 of
`jobs/opensea-sync/utils.ts`: `listedAfter` is `undefined` in once mode,
`listedBefore` is replaced by the current time in once mode. -/
structure FetchOrdersParams where
  listedAfter : Option Nat
  listedBefore : Nat
  offset : Nat
  limit : Nat
  orderDirection : String
  deriving DecidableEq, Repr

/-- The request parameters one loop iteration builds
(`jobs/opensea-sync/utils.ts` lines 28-35): in once mode `listedAfter` is
omitted and `listedBefore` is the current clock reading `now`. -/
def buildFetchOrdersURL (listedAfter listedBefore : Nat) (once : Bool)
    (now offset limit : Nat) : FetchOrdersParams :=
  { listedAfter := if once then none else some listedAfter
    listedBefore := if once then now else listedBefore
    offset := offset
    limit := limit
    orderDirection := "desc" }

/-- External collaborators of the offset-mode sync: the HTTP page fetch
(keyed by the request parameters, failing with a `String` error), the
per-order parser, and the clock sampled for cache busting. -/
structure Env where
  fetch : FetchOrdersParams → Except String (List OpenSeaOrder)
  parse : OpenSeaOrder → Option ParsedOrder
  now : Nat

/-- Outcome of one offset-mode sync call: a normal return carrying
`lastCreatedDate`, or a raised error. -/
inductive SyncResult where
  | ok (lastCreatedDate : String)
  | raised (e : String)
  deriving DecidableEq, Repr

/-- The row `handleOrder` pushes for one raw order
(`jobs/opensea-sync/utils.ts` lines 56-84): the target starts as the raw
`order.target`, is replaced by the parsed order's `getInfo().contract` when
parsing succeeds and info is present, and the row stores it lower-cased
next to the verbatim `prefixed_hash`, the lower-cased maker and the
creation date; `delayed` is the negation of `once`. -/
def handleOrder (parse : OpenSeaOrder → Option ParsedOrder) (once : Bool)
    (order : OpenSeaOrder) : StoredOrderRow :=
  let orderTarget :=
    match parse order with
    | some parsed =>
      match parsed.info with
      | some info => info.contract
      | none => order.target
    | none => order.target
  { hash := order.prefixed_hash
    target := lowerCase orderTarget
    maker := lowerCase order.maker_address
    created_at := order.created_date
    delayed := !once
    source := "opensea" }

/-- Trace events of one successful page iteration
(`jobs/opensea-sync/utils.ts` lines 37-141): the page request, the relay
enqueue of the successfully parsed orders (when any), the bulk insert of
the page's rows (when any), and the one-second rate-limit sleep (when not
in once mode). -/
def pageEvents (env : Env) (once : Bool) (params : FetchOrdersParams)
    (orders : List OpenSeaOrder) : List (SyncEvent FetchOrdersParams StoredOrderRow) :=
  let parsedOrders := orders.filterMap env.parse
  let values := orders.map (handleOrder env.parse once)
  [.requested params]
    ++ (if parsedOrders.length ≠ 0 then [.enqueued parsedOrders.length] else [])
    ++ (if values.length ≠ 0 then [.inserted values] else [])
    ++ (if once then [] else [.slept 1000])

/-- The `while (!done)` loop of `fetchOrders` in
`jobs/opensea-sync/utils.ts` (lines 26-154), indexed by fuel: each
iteration builds the request at the current offset, and on a fetch error
either returns the accumulated `lastCreatedDate` (realtime) or raises
(backfill); on success it accumulates the page, decides `done` from `once`,
a short page, or the realtime ceiling `maxOrdersToFetch`, updates
`lastCreatedDate` from the page's last order, sleeps unless in once mode,
and loops at `offset + limit`. -/
def fetchOrdersLoop (env : Env) (listedAfter listedBefore : Nat)
    (backfill once : Bool) (limit maxOrdersToFetch : Nat) :
    Nat → Nat → Nat → String →
    Option (List (SyncEvent FetchOrdersParams StoredOrderRow) × SyncResult)
  | 0, _, _, _ => none
  | fuel + 1, offset, numOrders, lastCreatedDate =>
    let params := buildFetchOrdersURL listedAfter listedBefore once env.now offset limit
    match env.fetch params with
    | .error e =>
      if backfill then some ([.requested params], .raised e)
      else some ([.requested params], .ok lastCreatedDate)
    | .ok orders =>
      let evs := pageEvents env once params orders
      let numOrders' := numOrders + orders.length
      let done := once || decide (orders.length < limit)
        || (!backfill && decide (maxOrdersToFetch ≤ numOrders'))
      let lastCreatedDate' :=
        match orders.getLast? with
        | some o => o.created_date
        | none => lastCreatedDate
      if done then some (evs, .ok lastCreatedDate')
      else
        match fetchOrdersLoop env listedAfter listedBefore backfill once limit
            maxOrdersToFetch fuel (offset + limit) numOrders' lastCreatedDate' with
        | none => none
        | some (evs', r) => some (evs ++ evs', r)

/-- The offset-mode entry point `fetchOrders(listedAfter, listedBefore,
backfill, once, offset, limit)` of `jobs/opensea-sync/utils.ts`: runs the
loop from the caller-supplied offset with `maxOrdersToFetch = 1000`,
`numOrders = 0` and `lastCreatedDate = ""`. -/
def fetchOrders (env : Env) (listedAfter : Nat) (listedBefore : Nat := 0)
    (backfill : Bool := false) (once : Bool := false) (offset : Nat := 0)
    (limit : Nat := 50) (fuel : Nat := 0) :
    Option (List (SyncEvent FetchOrdersParams StoredOrderRow) × SyncResult) :=
  fetchOrdersLoop env listedAfter listedBefore backfill once limit 1000
    fuel offset 0 ""

end OpenSeaSync

namespace SeaportSync

open Relayer

/-- A raw Seaport wire order, restricted to the fields
`jobs/seaport-sync/utils.ts` reads: the `order_hash` identifier, the
maker's address, the creation date, and the first offered asset's token
contract (`protocol_data.parameters.offer[0].token`), the fallback
target. -/
structure SeaportOrder where
  order_hash : String
  maker_address : String
  created_date : String
  offer0_token : String
  deriving DecidableEq, Repr

/-- A stored order row as built by the two `handleOrder` closures of
`jobs/seaport-sync/utils.ts` (no `delayed` column in this marketplace; the
raw `protocol_data` payload is dropped from the model). -/
structure StoredOrderRow where
  hash : String
  target : String
  maker : String
  created_at : String
  source : String
  deriving DecidableEq, Repr

/-- Arguments of `seaport.buildFetchOrdersURL`: the continuous drain passes
no time bounds (lines 21-26), the bounded window fetch passes
`listedAfter`/`listedBefore` (lines 130-137). -/
structure FetchOrdersParams where
  orderBy : String
  orderDirection : String
  limit : Nat
  cursor : Option String
  listedAfter : Option Nat
  listedBefore : Option Nat
  deriving DecidableEq, Repr

/-- One page of the upstream response: its orders and the `next` cursor. -/
structure Page where
  orders : List SeaportOrder
  next : Option String
  deriving DecidableEq, Repr

/-- External collaborators of the cursor-mode sync, over a store state `σ`:
the HTTP page fetch, the per-order parser `parseSeaportOrder`, and the
store's bulk insert, which reports the count of newly inserted rows
(conflicting rows are silently skipped) and the updated store state. -/
structure Env (σ : Type) where
  fetch : FetchOrdersParams → Except String Page
  parse : SeaportOrder → Option ParsedOrder
  insert : σ → List StoredOrderRow → Nat × σ

/-- Outcome of the continuous drain: a normal completion (no return value)
or a raised error. -/
inductive DrainResult where
  | completed
  | raised (e : String)
  deriving DecidableEq, Repr

/-- The row the drain's `handleOrder` pushes
(`jobs/seaport-sync/utils.ts` lines 42-59): `hash` is the lower-cased
`order_hash`; `target` is `parsed?.getInfo()?.contract.toLowerCase() ||
offer[0].token.toLowerCase()`, so the lower-cased parsed contract when
parsing succeeds, info is present and that lower-casing is non-empty, and
the lower-cased first offered token otherwise. -/
def handleOrder (parse : SeaportOrder → Option ParsedOrder)
    (order : SeaportOrder) : StoredOrderRow :=
  let fallback := lowerCase order.offer0_token
  let target :=
    match parse order with
    | some parsed =>
      match parsed.info with
      | some info =>
        if lowerCase info.contract = "" then fallback else lowerCase info.contract
      | none => fallback
    | none => fallback
  { hash := lowerCase order.order_hash
    target := target
    maker := lowerCase order.maker_address
    created_at := order.created_date
    source := "opensea" }

/-- The row the bounded window fetch's `handleOrder` pushes
(`jobs/seaport-sync/utils.ts` lines 153-170): `hash` is the verbatim
`order_hash`; `target` is `(parsed?.getInfo()?.contract ||
offer[0].token).toLowerCase()`, so the parsed contract when parsing
succeeds, info is present and the contract string is non-empty, and the
first offered token otherwise, lower-cased either way. -/
def handleOrderAll (parse : SeaportOrder → Option ParsedOrder)
    (order : SeaportOrder) : StoredOrderRow :=
  let chosen :=
    match parse order with
    | some parsed =>
      match parsed.info with
      | some info =>
        if info.contract = "" then order.offer0_token else info.contract
      | none => order.offer0_token
    | none => order.offer0_token
  { hash := order.order_hash
    target := lowerCase chosen
    maker := lowerCase order.maker_address
    created_at := order.created_date
    source := "opensea" }

/-- Request parameters of one drain iteration
(`jobs/seaport-sync/utils.ts` lines 21-26): newest-first by creation date,
page size 50, the current cursor, no time bounds. -/
def drainParams (cursor : Option String) : FetchOrdersParams :=
  { orderBy := "created_date"
    orderDirection := "desc"
    limit := 50
    cursor := cursor
    listedAfter := none
    listedBefore := none }

/-- The `while (!done)` loop of the continuous drain `fetchOrders` in
`jobs/seaport-sync/utils.ts` (lines 20-103), indexed by fuel: each
iteration fetches at the current cursor (any error is rethrown), advances
the cursor to the response's `next`, bulk-inserts the page's rows when
there are any, sets `done` exactly when that insert reports zero newly
inserted rows, enqueues the parsed orders, and loops at the new cursor. -/
def fetchOrdersLoop {σ : Type} (env : Env σ) :
    Nat → Option String → σ →
    Option (List (SyncEvent FetchOrdersParams StoredOrderRow) × σ × DrainResult)
  | 0, _, _ => none
  | fuel + 1, cursor, store =>
    let params := drainParams cursor
    match env.fetch params with
    | .error e => some ([.requested params], store, .raised e)
    | .ok page =>
      let cursor' := page.next
      let values := page.orders.map (handleOrder env.parse)
      let parsedOrders := page.orders.filterMap env.parse
      let insertResult :=
        if values.length ≠ 0 then some (env.insert store values) else none
      let store' :=
        match insertResult with
        | some (_, s) => s
        | none => store
      let done :=
        match insertResult with
        | some (0, _) => true
        | _ => false
      let evs := [SyncEvent.requested params]
        ++ (match insertResult with
            | some _ => [SyncEvent.inserted values]
            | none => [])
        ++ (if parsedOrders.length ≠ 0 then [SyncEvent.enqueued parsedOrders.length] else [])
      if done then some (evs, store', .completed)
      else
        match fetchOrdersLoop env fuel cursor' store' with
        | none => none
        | some (evs', s, r) => some (evs ++ evs', s, r)

/-- The cursor-mode continuous entry point `fetchOrders()` of
`jobs/seaport-sync/utils.ts`: runs the drain from no cursor. -/
def fetchOrders {σ : Type} (env : Env σ) (store : σ) (fuel : Nat) :
    Option (List (SyncEvent FetchOrdersParams StoredOrderRow) × σ × DrainResult) :=
  fetchOrdersLoop env fuel none store

/-- Request parameters of the bounded window fetch
(`jobs/seaport-sync/utils.ts` lines 130-137). -/
def windowParams (fromTimestamp toTimestamp : Option Nat)
    (cursor : Option String) : FetchOrdersParams :=
  { orderBy := "created_date"
    orderDirection := "desc"
    limit := 50
    cursor := cursor
    listedAfter := fromTimestamp
    listedBefore := toTimestamp }

/-- The cursor-mode bounded window entry point
`fetchAllOrders(fromTimestamp, toTimestamp, cursor)` of
`jobs/seaport-sync/utils.ts` (lines 106-213): a single fetch restricted to
the window, one bulk insert of the page's rows (when any), one enqueue of
the parsed orders (when any), and the response's `next` cursor returned;
a fetch error is rethrown. -/
def fetchAllOrders {σ : Type} (env : Env σ) (fromTimestamp toTimestamp : Option Nat)
    (cursor : Option String) (store : σ) :
    List (SyncEvent FetchOrdersParams StoredOrderRow) × σ × Except String (Option String) :=
  let params := windowParams fromTimestamp toTimestamp cursor
  match env.fetch params with
  | .error e => ([.requested params], store, .error e)
  | .ok page =>
    let values := page.orders.map (handleOrderAll env.parse)
    let parsedOrders := page.orders.filterMap env.parse
    let insertResult :=
      if values.length ≠ 0 then some (env.insert store values) else none
    let store' :=
      match insertResult with
      | some (_, s) => s
      | none => store
    let evs := [SyncEvent.requested params]
      ++ (match insertResult with
          | some _ => [SyncEvent.inserted values]
          | none => [])
      ++ (if parsedOrders.length ≠ 0 then [SyncEvent.enqueued parsedOrders.length] else [])
    (evs, store', .ok page.next)

end SeaportSync

namespace Relayer

/-! Concrete instances used to exercise the models on explicit inputs. -/

/-- An OpenSea order whose identifier has an upper-case letter. -/
def osOrder : OpenSeaSync.OpenSeaOrder :=
  { target := "0xT", prefixed_hash := "0xAB", maker_address := "0xM", created_date := "d1" }

/-- An environment whose fetch always fails. -/
def osFailEnv : OpenSeaSync.Env :=
  { fetch := fun _ => .error "boom", parse := fun _ => none, now := 7 }

/-- An environment serving one page of 49 orders at offset 0. -/
def osPage49Env : OpenSeaSync.Env :=
  { fetch := fun _ => .ok (List.replicate 49 osOrder)
    parse := fun _ => none
    now := 7 }

/-- An environment serving a full page of 50 orders at every offset. -/
def osFullPageEnv : OpenSeaSync.Env :=
  { fetch := fun _ => .ok (List.replicate 50 osOrder)
    parse := fun _ => none
    now := 7 }

/-- An environment serving one single-order page at every offset. -/
def osOnePageEnv : OpenSeaSync.Env :=
  { fetch := fun _ => .ok [osOrder], parse := fun _ => none, now := 7 }

/-- The row `handleOrder` builds for `osOrder` when parsing fails: the
identifier is kept verbatim, target and maker are lower-cased. -/
def osRow : OpenSeaSync.StoredOrderRow :=
  { hash := "0xAB", target := "0xt", maker := "0xm", created_at := "d1"
    delayed := false, source := "opensea" }

/-- A Seaport order whose parse yields an empty contract string. -/
def spOrder : SeaportSync.SeaportOrder :=
  { order_hash := "0xHH", maker_address := "0xM", created_date := "d2"
    offer0_token := "0xFB" }

/-- An environment serving one single-order page whose parse succeeds with
`getInfo().contract = ""`, over a store that reports zero new rows. -/
def spEmptyContractEnv : SeaportSync.Env Nat :=
  { fetch := fun _ => .ok { orders := [spOrder], next := none }
    parse := fun _ => some { info := some { contract := "" } }
    insert := fun s _ => (0, s) }

/-- The row the drain builds for `spOrder` under `spEmptyContractEnv`:
parsing succeeded, yet the target is the lower-cased fallback token because
the parsed contract lower-cases to the empty string. -/
def spEmptyContractRow : SeaportSync.StoredOrderRow :=
  { hash := "0xhh", target := "0xfb", maker := "0xm", created_at := "d2"
    source := "opensea" }

/-- An environment serving one single-order page whose parse succeeds with
contract `0xC`, over a store that reports zero new rows. -/
def spParsedEnv : SeaportSync.Env Nat :=
  { fetch := fun _ => .ok { orders := [spOrder], next := some "c1" }
    parse := fun _ => some { info := some { contract := "0xC" } }
    insert := fun s _ => (0, s) }

/-- An environment whose fetch always yields an empty page with no next
cursor (upstream exhaustion). -/
def spExhaustedEnv : SeaportSync.Env Nat :=
  { fetch := fun _ => .ok { orders := [], next := none }
    parse := fun _ => none
    insert := fun s rows => (rows.length, s) }

/-- An environment whose fetch always fails. -/
def spFailEnv : SeaportSync.Env Nat :=
  { fetch := fun _ => .error "down", parse := fun _ => none
    insert := fun s rows => (rows.length, s) }

/-- An environment serving a full page of 50 orders at offset 0 and a
single-order page at every other offset. -/
def osTwoPageEnv : OpenSeaSync.Env :=
  { fetch := fun p =>
      if p.offset = 0 then .ok (List.replicate 50 osOrder) else .ok [osOrder]
    parse := fun _ => none
    now := 7 }

/-- The row the drain builds for `spOrder` under `spParsedEnv`: parsing
succeeded with contract `0xC`, so the target is its lower-casing. -/
def spParsedRow : SeaportSync.StoredOrderRow :=
  { hash := "0xhh", target := "0xc", maker := "0xm", created_at := "d2"
    source := "opensea" }

end Relayer

namespace Relayer

theorem insertedBatches_append {α ρ : Type} (l₁ l₂ : List (SyncEvent α ρ)) :
    insertedBatches (l₁ ++ l₂) = insertedBatches l₁ ++ insertedBatches l₂ := by
  induction l₁ with
  | nil => rfl
  | cons e l ih => cases e <;> simp [insertedBatches, ih]

theorem requestedParams_append {α ρ : Type} (l₁ l₂ : List (SyncEvent α ρ)) :
    requestedParams (l₁ ++ l₂) = requestedParams l₁ ++ requestedParams l₂ := by
  induction l₁ with
  | nil => rfl
  | cons e l ih => cases e <;> simp [requestedParams, ih]

theorem sleepCount_append {α ρ : Type} (l₁ l₂ : List (SyncEvent α ρ)) :
    sleepCount (l₁ ++ l₂) = sleepCount l₁ + sleepCount l₂ := by
  induction l₁ with
  | nil => simp [sleepCount]
  | cons e l ih => cases e <;> (simp [sleepCount, ih]; try omega)

end Relayer

namespace OpenSeaSync

open Relayer

theorem pageEvents_inserted (env : Env) (once : Bool) (params : FetchOrdersParams)
    (orders : List OpenSeaOrder) (rows : List StoredOrderRow)
    (h : rows ∈ insertedBatches (pageEvents env once params orders)) :
    rows = orders.map (handleOrder env.parse once) := by
  simp only [pageEvents, insertedBatches_append, insertedBatches] at h
  split at h <;> split at h <;> split at h <;>
    simp [insertedBatches] at h <;> exact h

theorem fetchOrdersLoop_inserted (env : Env) (la lb : Nat) (b once : Bool)
    (lim maxo : Nat) :
    ∀ (fuel offset n : Nat) (lcd : String)
      (evs : List (SyncEvent FetchOrdersParams StoredOrderRow)) (r : SyncResult),
      fetchOrdersLoop env la lb b once lim maxo fuel offset n lcd = some (evs, r) →
      ∀ rows ∈ insertedBatches evs,
        ∃ src : List OpenSeaOrder, rows = src.map (handleOrder env.parse once) := by
  intro fuel
  induction fuel with
  | zero =>
    intro offset n lcd evs r h
    exact absurd h (by simp [fetchOrdersLoop])
  | succ fuel ih =>
    intro offset n lcd evs r h rows hrows
    rw [fetchOrdersLoop] at h
    cases hf : env.fetch (buildFetchOrdersURL la lb once env.now offset lim) with
    | error e =>
      rw [hf] at h
      simp only at h
      split at h <;>
        · simp only [Option.some.injEq, Prod.mk.injEq] at h
          obtain ⟨h1, -⟩ := h
          subst h1
          simp [insertedBatches] at hrows
    | ok orders =>
      rw [hf] at h
      simp only at h
      split at h
      · simp only [Option.some.injEq, Prod.mk.injEq] at h
        obtain ⟨h1, -⟩ := h
        subst h1
        exact ⟨orders, pageEvents_inserted env once _ orders rows hrows⟩
      · revert h
        split
        · intro h; exact absurd h (by simp)
        · intro h
          simp only [Option.some.injEq, Prod.mk.injEq] at h
          obtain ⟨h1, -⟩ := h
          subst h1
          rw [insertedBatches_append] at hrows
          rcases List.mem_append.mp hrows with hl | hr
          · exact ⟨orders, pageEvents_inserted env once _ orders rows hl⟩
          · exact ih _ _ _ _ _ (by assumption) rows hr

end OpenSeaSync

namespace OpenSeaSync

open Relayer

theorem fetchOrdersLoop_head (env : Env) (la lb : Nat) (b once : Bool)
    (lim maxo fuel offset n : Nat) (lcd : String)
    (evs : List (SyncEvent FetchOrdersParams StoredOrderRow)) (r : SyncResult)
    (h : fetchOrdersLoop env la lb b once lim maxo (fuel + 1) offset n lcd = some (evs, r)) :
    ∃ rest, evs
      = SyncEvent.requested (buildFetchOrdersURL la lb once env.now offset lim) :: rest := by
  rw [fetchOrdersLoop] at h
  cases hf : env.fetch (buildFetchOrdersURL la lb once env.now offset lim) with
  | error e =>
    rw [hf] at h
    simp only at h
    split at h <;>
      · simp only [Option.some.injEq, Prod.mk.injEq] at h
        obtain ⟨h1, -⟩ := h
        exact ⟨[], h1.symm⟩
  | ok orders =>
    rw [hf] at h
    simp only at h
    split at h
    · simp only [Option.some.injEq, Prod.mk.injEq] at h
      obtain ⟨h1, -⟩ := h
      exact ⟨_, h1.symm⟩
    · revert h
      split
      · intro h; exact absurd h (by simp)
      · intro h
        simp only [Option.some.injEq, Prod.mk.injEq] at h
        obtain ⟨h1, -⟩ := h
        exact ⟨_, h1.symm⟩

theorem fetchOrdersLoop_realtime_ok (env : Env) (la lb : Nat) (once : Bool)
    (lim maxo : Nat) :
    ∀ (fuel offset n : Nat) (lcd : String)
      (evs : List (SyncEvent FetchOrdersParams StoredOrderRow)) (r : SyncResult),
      fetchOrdersLoop env la lb false once lim maxo fuel offset n lcd = some (evs, r) →
      ∃ s, r = SyncResult.ok s := by
  intro fuel
  induction fuel with
  | zero =>
    intro offset n lcd evs r h
    exact absurd h (by simp [fetchOrdersLoop])
  | succ fuel ih =>
    intro offset n lcd evs r h
    rw [fetchOrdersLoop] at h
    cases hf : env.fetch (buildFetchOrdersURL la lb once env.now offset lim) with
    | error e =>
      rw [hf] at h
      simp only [Bool.false_eq_true, if_false] at h
      simp only [Option.some.injEq, Prod.mk.injEq] at h
      obtain ⟨-, h2⟩ := h
      exact ⟨lcd, h2.symm⟩
    | ok orders =>
      rw [hf] at h
      simp only at h
      split at h
      · simp only [Option.some.injEq, Prod.mk.injEq] at h
        obtain ⟨-, h2⟩ := h
        exact ⟨_, h2.symm⟩
      · revert h
        split
        · intro h; exact absurd h (by simp)
        · intro h
          simp only [Option.some.injEq, Prod.mk.injEq] at h
          obtain ⟨-, h2⟩ := h
          subst h2
          exact ih _ _ _ _ _ (by assumption)

end OpenSeaSync

namespace SeaportSync

open Relayer

theorem drainErrorPropagates {σ : Type} (env : Env σ) (fuel : Nat)
    (cursor : Option String) (store : σ) (e : String)
    (hf : env.fetch (drainParams cursor) = .error e) :
    fetchOrdersLoop env (fuel + 1) cursor store
      = some ([.requested (drainParams cursor)], store, .raised e) := by
  rw [fetchOrdersLoop]
  rw [hf]

theorem drainStopsOnZeroInsert {σ : Type} (env : Env σ) (fuel : Nat)
    (cursor : Option String) (store : σ) (page : Page)
    (hf : env.fetch (drainParams cursor) = .ok page)
    (hne : page.orders ≠ [])
    (hz : (env.insert store (page.orders.map (handleOrder env.parse))).1 = 0) :
    ∃ evs,
      fetchOrdersLoop env (fuel + 1) cursor store
          = some (evs, (env.insert store (page.orders.map (handleOrder env.parse))).2,
              .completed)
        ∧ requestedParams evs = [drainParams cursor] := by
  rw [fetchOrdersLoop]
  rw [hf]
  simp only
  have hv : (page.orders.map (handleOrder env.parse)).length ≠ 0 := by
    simpa using hne
  rw [if_pos hv]
  rcases hins : env.insert store (page.orders.map (handleOrder env.parse)) with ⟨n, st'⟩
  have hn : n = 0 := by rw [hins] at hz; exact hz
  subst hn
  simp only
  refine ⟨_, rfl, ?_⟩
  rw [requestedParams_append]
  split <;> simp [requestedParams]

end SeaportSync

namespace SeaportSync

open Relayer

theorem drainEmptyPageContinues {σ : Type} (env : Env σ) (fuel : Nat)
    (cursor : Option String) (store : σ) (page : Page)
    (hf : env.fetch (drainParams cursor) = .ok page)
    (hempty : page.orders = []) :
    fetchOrdersLoop env (fuel + 1) cursor store
      = match fetchOrdersLoop env fuel page.next store with
        | none => none
        | some (evs', s, r) => some (.requested (drainParams cursor) :: evs', s, r) := by
  rw [fetchOrdersLoop]
  rw [hf]
  simp only [hempty, List.map_nil, List.length_nil, ne_eq, not_true_eq_false,
    List.filterMap_nil, if_false]
  cases hrec : fetchOrdersLoop env fuel page.next store with
  | none => simp
  | some x => rcases x with ⟨evs', s, r⟩; simp

theorem drainDivergesOnEmptyPages {σ : Type} (env : Env σ)
    (hempty : ∀ c, ∃ nxt, env.fetch (drainParams c) = .ok { orders := [], next := nxt }) :
    ∀ (fuel : Nat) (cursor : Option String) (store : σ),
      fetchOrdersLoop env fuel cursor store = none := by
  intro fuel
  induction fuel with
  | zero => intro cursor store; rfl
  | succ fuel ih =>
    intro cursor store
    obtain ⟨nxt, hf⟩ := hempty cursor
    rw [fetchOrdersLoop]
    rw [hf]
    simp [ih]

end SeaportSync

namespace SeaportSync

open Relayer

theorem drainCompletedStopCause {σ : Type} (env : Env σ) :
    ∀ (fuel : Nat) (cursor : Option String) (store : σ)
      (evs : List (SyncEvent FetchOrdersParams StoredOrderRow)) (st : σ),
      fetchOrdersLoop env fuel cursor store = some (evs, st, .completed) →
      ∃ (cursor' : Option String) (store' : σ) (page : Page),
        env.fetch (drainParams cursor') = .ok page
          ∧ page.orders ≠ []
          ∧ (env.insert store' (page.orders.map (handleOrder env.parse))).1 = 0 := by
  intro fuel
  induction fuel with
  | zero =>
    intro cursor store evs st h
    exact absurd h (by simp [fetchOrdersLoop])
  | succ fuel ih =>
    intro cursor store evs st h
    rw [fetchOrdersLoop] at h
    cases hf : env.fetch (drainParams cursor) with
    | error e =>
      rw [hf] at h
      simp only [Option.some.injEq, Prod.mk.injEq] at h
      obtain ⟨-, -, h3⟩ := h
      exact absurd h3 (by simp)
    | ok page =>
      rw [hf] at h
      simp only at h
      by_cases hv : (page.orders.map (handleOrder env.parse)).length ≠ 0
      · rw [if_pos hv] at h
        rcases hins : env.insert store (page.orders.map (handleOrder env.parse)) with ⟨n, st'⟩
        rw [hins] at h
        cases n with
        | zero =>
          refine ⟨cursor, store, page, hf, ?_, ?_⟩
          · simpa using hv
          · rw [hins]
        | succ n =>
          simp only [Bool.false_eq_true, if_false] at h
          revert h
          split
          · intro h; exact absurd h (by simp)
          · intro h
            simp only [Option.some.injEq, Prod.mk.injEq] at h
            obtain ⟨-, -, h3⟩ := h
            subst h3
            exact ih _ _ _ _ (by assumption)
      · rw [if_neg hv] at h
        simp only [Bool.false_eq_true, if_false] at h
        revert h
        split
        · intro h; exact absurd h (by simp)
        · intro h
          simp only [Option.some.injEq, Prod.mk.injEq] at h
          obtain ⟨-, -, h3⟩ := h
          subst h3
          exact ih _ _ _ _ (by assumption)

end SeaportSync

namespace SeaportSync

open Relayer

theorem drainLoop_inserted {σ : Type} (env : Env σ) :
    ∀ (fuel : Nat) (cursor : Option String) (store : σ)
      (evs : List (SyncEvent FetchOrdersParams StoredOrderRow)) (st : σ)
      (r : DrainResult),
      fetchOrdersLoop env fuel cursor store = some (evs, st, r) →
      ∀ rows ∈ insertedBatches evs,
        ∃ src : List SeaportOrder, rows = src.map (handleOrder env.parse) := by
  intro fuel
  induction fuel with
  | zero =>
    intro cursor store evs st r h
    exact absurd h (by simp [fetchOrdersLoop])
  | succ fuel ih =>
    intro cursor store evs st r h rows hrows
    rw [fetchOrdersLoop] at h
    cases hf : env.fetch (drainParams cursor) with
    | error e =>
      rw [hf] at h
      simp only [Option.some.injEq, Prod.mk.injEq] at h
      obtain ⟨h1, -⟩ := h
      subst h1
      simp [insertedBatches] at hrows
    | ok page =>
      rw [hf] at h
      simp only at h
      by_cases hv : (page.orders.map (handleOrder env.parse)).length ≠ 0
      · rw [if_pos hv] at h
        rcases hins : env.insert store (page.orders.map (handleOrder env.parse)) with ⟨n, st'⟩
        rw [hins] at h
        have hone : ∀ rows ∈ insertedBatches
            (([SyncEvent.requested (drainParams cursor)]
                ++ [SyncEvent.inserted (page.orders.map (handleOrder env.parse))])
              ++ (if (page.orders.filterMap env.parse).length ≠ 0 then
                    [SyncEvent.enqueued (page.orders.filterMap env.parse).length]
                  else []) :
              List (SyncEvent FetchOrdersParams StoredOrderRow)),
            ∃ src : List SeaportOrder, rows = src.map (handleOrder env.parse) := by
          intro rows hr
          rw [insertedBatches_append] at hr
          rcases List.mem_append.mp hr with hl | hr'
          · simp [insertedBatches] at hl
            exact ⟨page.orders, hl⟩
          · revert hr'
            split <;> simp [insertedBatches]
        cases n with
        | zero =>
          have hm : (match some ((0 : Nat), st') with
              | some (0, _) => true
              | _ => false) = true := rfl
          rw [hm] at h
          rw [if_pos rfl] at h
          simp only [Option.some.injEq, Prod.mk.injEq] at h
          obtain ⟨h1, -⟩ := h
          subst h1
          exact hone rows hrows
        | succ n =>
          simp only [Bool.false_eq_true, if_false] at h
          revert h
          split
          · intro h; exact absurd h (by simp)
          · intro h
            simp only [Option.some.injEq, Prod.mk.injEq] at h
            obtain ⟨h1, -⟩ := h
            subst h1
            rw [insertedBatches_append] at hrows
            rcases List.mem_append.mp hrows with hl | hr'
            · exact hone rows hl
            · exact ih _ _ _ _ _ (by assumption) rows hr'
      · rw [if_neg hv] at h
        simp only [Bool.false_eq_true, if_false] at h
        revert h
        split
        · intro h; exact absurd h (by simp)
        · intro h
          simp only [Option.some.injEq, Prod.mk.injEq] at h
          obtain ⟨h1, -⟩ := h
          subst h1
          rw [insertedBatches_append] at hrows
          rcases List.mem_append.mp hrows with hl | hr'
          · rw [insertedBatches_append] at hl
            rcases List.mem_append.mp hl with h2 | h2
            · simp [insertedBatches] at h2
            · revert h2
              split <;> simp [insertedBatches]
          · exact ih _ _ _ _ _ (by assumption) rows hr'

theorem fetchAllOrders_inserted {σ : Type} (env : Env σ)
    (fromT toT : Option Nat) (cursor : Option String) (store : σ) :
    ∀ rows ∈ insertedBatches (fetchAllOrders env fromT toT cursor store).1,
      ∃ src : List SeaportOrder, rows = src.map (handleOrderAll env.parse) := by
  intro rows hrows
  unfold fetchAllOrders at hrows
  cases hf : env.fetch (windowParams fromT toT cursor) with
  | error e =>
    simp only [hf] at hrows
    simp [insertedBatches] at hrows
  | ok page =>
    simp only [hf] at hrows
    rw [insertedBatches_append, insertedBatches_append] at hrows
    rcases List.mem_append.mp hrows with hl | hr
    · rcases List.mem_append.mp hl with h2 | h2
      · simp [insertedBatches] at h2
      · revert h2
        split
        · intro h2
          simp [insertedBatches] at h2
          exact ⟨page.orders, h2⟩
        · intro h2; simp [insertedBatches] at h2
    · revert hr
      split <;> simp [insertedBatches]

end SeaportSync

namespace OpenSeaSync

open Relayer

theorem fetchOrdersLoop_realtime_ceiling (env : Env) (la lb : Nat)
    (hfull : ∀ p, ∃ orders, env.fetch p = .ok orders ∧ orders.length = 50) :
    ∀ (fuel : Nat), 1 ≤ fuel →
      ∀ (offset n : Nat) (lcd : String), 1000 ≤ n + 50 * fuel →
        ∃ evs s,
          fetchOrdersLoop env la lb false false 50 1000 fuel offset n lcd
            = some (evs, .ok s) := by
  intro fuel
  induction fuel with
  | zero => intro h; omega
  | succ fuel ih =>
    intro _ offset n lcd hceil
    obtain ⟨orders, hf, hlen⟩ := hfull (buildFetchOrdersURL la lb false env.now offset 50)
    rw [fetchOrdersLoop]
    rw [hf]
    simp only [hlen]
    by_cases hc : 1000 ≤ n + 50
    · have hdone : (false || decide ((50 : Nat) < 50)
          || (!false && decide (1000 ≤ n + 50))) = true := by
        simp [hc]
      rw [hdone]
      exact ⟨_, _, rfl⟩
    · have hdone : (false || decide ((50 : Nat) < 50)
          || (!false && decide (1000 ≤ n + 50))) = false := by
        simp [hc]
      rw [hdone]
      have hfuel : 1 ≤ fuel := by omega
      have hceil' : 1000 ≤ (n + 50) + 50 * fuel := by omega
      obtain ⟨evs', s, hrec⟩ := ih hfuel (offset + 50) (n + 50) _ hceil'
      rw [hrec]
      exact ⟨_, _, rfl⟩

end OpenSeaSync

namespace OpenSeaSync

open Relayer

theorem pageEvents_requested (env : Env) (once : Bool) (params : FetchOrdersParams)
    (orders : List OpenSeaOrder) :
    requestedParams (pageEvents env once params orders) = [params] := by
  simp only [pageEvents, requestedParams_append, requestedParams]
  split <;> split <;> split <;> simp [requestedParams]

theorem pageEvents_sleepCount (env : Env) (once : Bool) (params : FetchOrdersParams)
    (orders : List OpenSeaOrder) :
    sleepCount (pageEvents env once params orders) = if once then 0 else 1 := by
  simp only [pageEvents, sleepCount_append, sleepCount]
  split <;> split <;> split <;> simp [sleepCount]

theorem pageEvents_sleep_last (env : Env) (params : FetchOrdersParams)
    (orders : List OpenSeaOrder) :
    ∃ pre, pageEvents env false params orders = pre ++ [SyncEvent.slept 1000] := by
  refine ⟨[SyncEvent.requested params]
    ++ (if (orders.filterMap env.parse).length ≠ 0 then
          [SyncEvent.enqueued (orders.filterMap env.parse).length] else [])
    ++ (if (orders.map (handleOrder env.parse false)).length ≠ 0 then
          [SyncEvent.inserted (orders.map (handleOrder env.parse false))] else []), ?_⟩
  simp [pageEvents]

theorem handleOrder_hash (parse : OpenSeaOrder → Option ParsedOrder) (once : Bool)
    (order : OpenSeaOrder) :
    (handleOrder parse once order).hash = order.prefixed_hash := rfl

theorem handleOrder_target_cases (parse : OpenSeaOrder → Option ParsedOrder)
    (once : Bool) (order : OpenSeaOrder) :
    (parse order = none → (handleOrder parse once order).target = lowerCase order.target)
      ∧ (∀ parsed, parse order = some parsed →
          (parsed.info = none →
            (handleOrder parse once order).target = lowerCase order.target)
          ∧ (∀ info, parsed.info = some info →
              (handleOrder parse once order).target = lowerCase info.contract)) := by
  constructor
  · intro h; simp [handleOrder, h]
  · intro parsed hp
    constructor
    · intro h; simp [handleOrder, hp, h]
    · intro info h; simp [handleOrder, hp, h]

end OpenSeaSync

namespace SeaportSync

open Relayer

theorem drain_handleOrder_hash (parse : SeaportOrder → Option ParsedOrder)
    (order : SeaportOrder) :
    (handleOrder parse order).hash = lowerCase order.order_hash := rfl

theorem window_handleOrder_hash (parse : SeaportOrder → Option ParsedOrder)
    (order : SeaportOrder) :
    (handleOrderAll parse order).hash = order.order_hash := rfl

theorem drain_handleOrder_target_cases (parse : SeaportOrder → Option ParsedOrder)
    (order : SeaportOrder) :
    (parse order = none →
        (handleOrder parse order).target = lowerCase order.offer0_token)
      ∧ (∀ parsed, parse order = some parsed →
          (parsed.info = none →
            (handleOrder parse order).target = lowerCase order.offer0_token)
          ∧ (∀ info, parsed.info = some info →
              (lowerCase info.contract = "" →
                (handleOrder parse order).target = lowerCase order.offer0_token)
              ∧ (lowerCase info.contract ≠ "" →
                (handleOrder parse order).target = lowerCase info.contract))) := by
  refine ⟨fun h => by simp [handleOrder, h], fun parsed hp => ⟨fun h => by simp [handleOrder, hp, h], fun info h => ⟨fun hc => by simp [handleOrder, hp, h, hc], fun hc => by simp [handleOrder, hp, h, hc]⟩⟩⟩

theorem window_handleOrder_target_cases (parse : SeaportOrder → Option ParsedOrder)
    (order : SeaportOrder) :
    (parse order = none →
        (handleOrderAll parse order).target = lowerCase order.offer0_token)
      ∧ (∀ parsed, parse order = some parsed →
          (parsed.info = none →
            (handleOrderAll parse order).target = lowerCase order.offer0_token)
          ∧ (∀ info, parsed.info = some info →
              (info.contract = "" →
                (handleOrderAll parse order).target = lowerCase order.offer0_token)
              ∧ (info.contract ≠ "" →
                (handleOrderAll parse order).target = lowerCase info.contract))) := by
  refine ⟨fun h => by simp [handleOrderAll, h], fun parsed hp => ⟨fun h => by simp [handleOrderAll, hp, h], fun info h => ⟨fun hc => by simp [handleOrderAll, hp, h, hc], fun hc => by simp [handleOrderAll, hp, h, hc]⟩⟩⟩

end SeaportSync

open Relayer

/-- Claim C10: in the offset-mode sync with `once = true`, the page request
is built with `listedAfter` omitted and `listedBefore` replaced by the
clock's current time, so the fetched window is independent of the
caller-supplied `listedAfter` and `listedBefore` arguments. -/
theorem onceModeRequestWindow :
    ∀ (la lb la' lb' now offset lim : Nat),
      OpenSeaSync.buildFetchOrdersURL la lb true now offset lim
          = OpenSeaSync.buildFetchOrdersURL la' lb' true now offset lim
        ∧ (OpenSeaSync.buildFetchOrdersURL la lb true now offset lim).listedAfter = none
        ∧ (OpenSeaSync.buildFetchOrdersURL la lb true now offset lim).listedBefore
          = now := by
  intro la lb la' lb' now offset lim
  exact ⟨rfl, rfl, rfl⟩

/-- Claim C8: the bounded window entry point `fetchAllOrders` issues
exactly one page request, carrying the caller's from/to bounds and cursor,
and on a successful fetch returns the response's next-page token. -/
theorem windowFetchSinglePage :
    (∀ (σ : Type) (env : SeaportSync.Env σ) (fromT toT : Option Nat)
        (cursor : Option String) (store : σ),
      requestedParams (SeaportSync.fetchAllOrders env fromT toT cursor store).1
        = [SeaportSync.windowParams fromT toT cursor])
  ∧ (∀ (σ : Type) (env : SeaportSync.Env σ) (fromT toT : Option Nat)
        (cursor : Option String) (store : σ) (page : SeaportSync.Page),
      env.fetch (SeaportSync.windowParams fromT toT cursor) = .ok page →
        (SeaportSync.fetchAllOrders env fromT toT cursor store).2.2
          = .ok page.next) := by
  constructor
  · intro σ env fromT toT cursor store
    unfold SeaportSync.fetchAllOrders
    cases hf : env.fetch (SeaportSync.windowParams fromT toT cursor) with
    | error e => simp only [hf]; simp [requestedParams]
    | ok page =>
      simp only [hf]
      simp only [requestedParams, requestedParams_append, List.cons.injEq, true_and]
      split <;> split <;> simp [requestedParams]
  · intro σ env fromT toT cursor store page hf
    unfold SeaportSync.fetchAllOrders
    simp only [hf]

/-- Witness for C8, at the concrete environment `spParsedEnv`: the single
request carries the window `(3, 9)` and cursor `c0`, and the call returns
the upstream's next cursor `c1`. -/
theorem windowFetchSinglePage_witness :
    requestedParams
        (SeaportSync.fetchAllOrders Relayer.spParsedEnv (some 3) (some 9)
          (some "c0") 0).1
      = [SeaportSync.windowParams (some 3) (some 9) (some "c0")]
    ∧ (SeaportSync.fetchAllOrders Relayer.spParsedEnv (some 3) (some 9)
        (some "c0") 0).2.2 = .ok (some "c1") :=
  ⟨windowFetchSinglePage.1 Nat Relayer.spParsedEnv (some 3) (some 9) (some "c0") 0,
   windowFetchSinglePage.2 Nat Relayer.spParsedEnv (some 3) (some 9) (some "c0") 0
     { orders := [Relayer.spOrder], next := some "c1" } rfl⟩

/-- Claim C1: in the offset-mode sync, a page error raises to the caller
in backfill mode (the call returns no value) and is absorbed in realtime
mode, the call returning the `lastCreatedDate` accumulated from the pages
processed before the error; a realtime call never raises, and a realtime
call whose very first page fails returns the empty string. -/
theorem offsetModeFailurePolicy :
    (∀ (env : OpenSeaSync.Env) (la lb : Nat) (once : Bool)
        (lim maxo fuel offset n : Nat) (lcd e : String),
      env.fetch (OpenSeaSync.buildFetchOrdersURL la lb once env.now offset lim)
          = .error e →
        OpenSeaSync.fetchOrdersLoop env la lb true once lim maxo (fuel + 1) offset n lcd
            = some ([.requested (OpenSeaSync.buildFetchOrdersURL la lb once env.now offset lim)],
                .raised e)
          ∧ OpenSeaSync.fetchOrdersLoop env la lb false once lim maxo (fuel + 1) offset n lcd
            = some ([.requested (OpenSeaSync.buildFetchOrdersURL la lb once env.now offset lim)],
                .ok lcd))
  ∧ (∀ (env : OpenSeaSync.Env) (la lb : Nat) (once : Bool) (offset lim fuel : Nat)
        (evs : List (SyncEvent OpenSeaSync.FetchOrdersParams OpenSeaSync.StoredOrderRow))
        (r : OpenSeaSync.SyncResult),
      OpenSeaSync.fetchOrders env la lb false once offset lim fuel = some (evs, r) →
        ∃ s, r = .ok s)
  ∧ (∀ (env : OpenSeaSync.Env) (la lb : Nat) (once : Bool) (offset lim fuel : Nat)
        (e : String),
      env.fetch (OpenSeaSync.buildFetchOrdersURL la lb once env.now offset lim)
          = .error e →
        OpenSeaSync.fetchOrders env la lb false once offset lim (fuel + 1)
          = some ([.requested (OpenSeaSync.buildFetchOrdersURL la lb once env.now offset lim)],
              .ok "")) := by
  refine ⟨?_, ?_, ?_⟩
  · intro env la lb once lim maxo fuel offset n lcd e hf
    constructor <;> (rw [OpenSeaSync.fetchOrdersLoop]; rw [hf]; rfl)
  · intro env la lb once offset lim fuel evs r h
    exact OpenSeaSync.fetchOrdersLoop_realtime_ok env la lb once lim 1000 fuel offset 0 "" evs r h
  · intro env la lb once offset lim fuel e hf
    unfold OpenSeaSync.fetchOrders
    rw [OpenSeaSync.fetchOrdersLoop]
    rw [hf]
    rfl

/-- Witness for C1, at the always-failing environment `osFailEnv`: the
backfill call raises `boom`, the realtime call returns the accumulated
date `d0`, and a fresh realtime call returns the empty string. -/
theorem offsetModeFailurePolicy_witness :
    OpenSeaSync.fetchOrdersLoop Relayer.osFailEnv 1 2 true false 50 1000 1 0 0 "d0"
        = some ([.requested (OpenSeaSync.buildFetchOrdersURL 1 2 false 7 0 50)],
            .raised "boom")
      ∧ OpenSeaSync.fetchOrdersLoop Relayer.osFailEnv 1 2 false false 50 1000 1 0 0 "d0"
        = some ([.requested (OpenSeaSync.buildFetchOrdersURL 1 2 false 7 0 50)],
            .ok "d0")
      ∧ OpenSeaSync.fetchOrders Relayer.osFailEnv 1 2 false false 0 50 1
        = some ([.requested (OpenSeaSync.buildFetchOrdersURL 1 2 false 7 0 50)],
            .ok "") := by
  obtain ⟨hb, hr⟩ :=
    offsetModeFailurePolicy.1 Relayer.osFailEnv 1 2 false 50 1000 0 0 0 "d0" "boom" rfl
  exact ⟨hb, hr, offsetModeFailurePolicy.2.2 Relayer.osFailEnv 1 2 false 0 50 0 "boom" rfl⟩

/-- Claim C4: in the realtime offset-mode sync (backfill false) the loop
stops as soon as the cumulative fetched-order count reaches or exceeds the
fixed ceiling 1000 — the iteration that reaches it returns immediately —
and under full 50-order pages at every offset the whole call terminates
normally within the ceiling's page budget (20 pages of 50). -/
theorem realtimeCeiling :
    (∀ (env : OpenSeaSync.Env) (la lb : Nat) (once : Bool)
        (lim fuel offset n : Nat) (lcd : String)
        (orders : List OpenSeaSync.OpenSeaOrder),
      env.fetch (OpenSeaSync.buildFetchOrdersURL la lb once env.now offset lim)
          = .ok orders →
      1000 ≤ n + orders.length →
        OpenSeaSync.fetchOrdersLoop env la lb false once lim 1000 (fuel + 1) offset n lcd
          = some (OpenSeaSync.pageEvents env once
                (OpenSeaSync.buildFetchOrdersURL la lb once env.now offset lim) orders,
              .ok (match orders.getLast? with
                   | some o => o.created_date
                   | none => lcd)))
  ∧ (∀ (env : OpenSeaSync.Env) (la lb : Nat),
      (∀ p, ∃ orders, env.fetch p = .ok orders ∧ orders.length = 50) →
      ∀ (fuel : Nat), 1 ≤ fuel → ∀ (offset n : Nat) (lcd : String),
        1000 ≤ n + 50 * fuel →
          ∃ evs s,
            OpenSeaSync.fetchOrdersLoop env la lb false false 50 1000 fuel offset n lcd
              = some (evs, .ok s))
  ∧ (∀ (env : OpenSeaSync.Env) (la lb offset : Nat),
      (∀ p, ∃ orders, env.fetch p = .ok orders ∧ orders.length = 50) →
        ∃ evs s,
          OpenSeaSync.fetchOrders env la lb false false offset 50 20
            = some (evs, .ok s)) := by
  refine ⟨?_, ?_, ?_⟩
  · intro env la lb once lim fuel offset n lcd orders hf hceil
    rw [OpenSeaSync.fetchOrdersLoop]
    rw [hf]
    have hdone : (once || decide (orders.length < lim)
        || (!false && decide (1000 ≤ n + orders.length))) = true := by
      simp [hceil]
    simp only [hdone, if_true]
  · intro env la lb hfull fuel hfuel offset n lcd hceil
    exact OpenSeaSync.fetchOrdersLoop_realtime_ceiling env la lb hfull fuel hfuel
      offset n lcd hceil
  · intro env la lb offset hfull
    exact OpenSeaSync.fetchOrdersLoop_realtime_ceiling env la lb hfull 20 (by omega)
      offset 0 "" (by omega)

/-- Witness for C4, at the environment `osFullPageEnv` that serves a full
50-order page at every offset: the realtime call with page size 50 and
fuel 20 terminates normally. -/
theorem realtimeCeiling_witness :
    ∃ evs s,
      OpenSeaSync.fetchOrders Relayer.osFullPageEnv 3 4 false false 0 50 20
        = some (evs, .ok s) :=
  realtimeCeiling.2.2 Relayer.osFullPageEnv 3 4 0
    (fun _ => ⟨List.replicate 50 Relayer.osOrder, rfl, by simp⟩)

/-- Claim C5: the cursor-mode continuous drain halts normally, with no
error, in any iteration whose non-empty page's bulk insert reports zero
newly inserted rows (the store state is the one that insert returned, and
no further page is requested), and a fetch error in any iteration is
propagated as a raised error carrying no partial-progress value. -/
theorem drainStopOnDuplicates :
    (∀ (σ : Type) (env : SeaportSync.Env σ) (fuel : Nat) (cursor : Option String)
        (store : σ) (page : SeaportSync.Page),
      env.fetch (SeaportSync.drainParams cursor) = .ok page →
      page.orders ≠ [] →
      (env.insert store (page.orders.map (SeaportSync.handleOrder env.parse))).1 = 0 →
        ∃ evs,
          SeaportSync.fetchOrdersLoop env (fuel + 1) cursor store
              = some (evs,
                  (env.insert store
                    (page.orders.map (SeaportSync.handleOrder env.parse))).2,
                  .completed)
            ∧ requestedParams evs = [SeaportSync.drainParams cursor])
  ∧ (∀ (σ : Type) (env : SeaportSync.Env σ) (fuel : Nat) (cursor : Option String)
        (store : σ) (e : String),
      env.fetch (SeaportSync.drainParams cursor) = .error e →
        SeaportSync.fetchOrdersLoop env (fuel + 1) cursor store
          = some ([.requested (SeaportSync.drainParams cursor)], store, .raised e)) :=
  ⟨fun _ env fuel cursor store page hf hne hz =>
    SeaportSync.drainStopsOnZeroInsert env fuel cursor store page hf hne hz,
   fun _ env fuel cursor store e hf =>
    SeaportSync.drainErrorPropagates env fuel cursor store e hf⟩

/-- Witness for C5: under `spParsedEnv` (store reports zero new rows) the
drain halts after its first page with a completed outcome; under
`spFailEnv` the drain raises the fetch error `down`. -/
theorem drainStopOnDuplicates_witness :
    (∃ evs,
      SeaportSync.fetchOrdersLoop Relayer.spParsedEnv 1 none 0
          = some (evs, 0, .completed)
        ∧ requestedParams evs = [SeaportSync.drainParams none])
    ∧ SeaportSync.fetchOrdersLoop Relayer.spFailEnv 1 none 0
        = some ([.requested (SeaportSync.drainParams none)], 0, .raised "down") :=
  ⟨drainStopOnDuplicates.1 Nat Relayer.spParsedEnv 0 none 0
      { orders := [Relayer.spOrder], next := some "c1" } rfl (by simp) rfl,
   drainStopOnDuplicates.2 Nat Relayer.spFailEnv 0 none 0 "down" rfl⟩

/-- Claim C9: the continuous drain's only normal termination is an
iteration whose non-empty page's insert reported zero new rows; an
iteration whose page is empty performs no insert and continues at the
response's next cursor, and against an upstream that always serves empty
pages the drain never terminates (it exhausts any fuel). -/
theorem drainUpstreamExhaustionIgnored :
    (∀ (σ : Type) (env : SeaportSync.Env σ) (fuel : Nat) (cursor : Option String)
        (store : σ)
        (evs : List (SyncEvent SeaportSync.FetchOrdersParams SeaportSync.StoredOrderRow))
        (st : σ),
      SeaportSync.fetchOrdersLoop env fuel cursor store = some (evs, st, .completed) →
        ∃ (cursor' : Option String) (store' : σ) (page : SeaportSync.Page),
          env.fetch (SeaportSync.drainParams cursor') = .ok page
            ∧ page.orders ≠ []
            ∧ (env.insert store'
                (page.orders.map (SeaportSync.handleOrder env.parse))).1 = 0)
  ∧ (∀ (σ : Type) (env : SeaportSync.Env σ) (fuel : Nat) (cursor : Option String)
        (store : σ) (page : SeaportSync.Page),
      env.fetch (SeaportSync.drainParams cursor) = .ok page →
      page.orders = [] →
        SeaportSync.fetchOrdersLoop env (fuel + 1) cursor store
          = match SeaportSync.fetchOrdersLoop env fuel page.next store with
            | none => none
            | some (evs', s, r) =>
              some (.requested (SeaportSync.drainParams cursor) :: evs', s, r))
  ∧ (∀ (σ : Type) (env : SeaportSync.Env σ),
      (∀ c, ∃ nxt, env.fetch (SeaportSync.drainParams c)
          = .ok { orders := [], next := nxt }) →
      ∀ (fuel : Nat) (cursor : Option String) (store : σ),
        SeaportSync.fetchOrdersLoop env fuel cursor store = none) :=
  ⟨fun _ env fuel cursor store evs st h =>
    SeaportSync.drainCompletedStopCause env fuel cursor store evs st h,
   fun _ env fuel cursor store page hf he =>
    SeaportSync.drainEmptyPageContinues env fuel cursor store page hf he,
   fun _ env hempty fuel cursor store =>
    SeaportSync.drainDivergesOnEmptyPages env hempty fuel cursor store⟩

/-- Witness for C9: under `spExhaustedEnv`, whose every page is empty, the
drain does not terminate within fuel 5; and the completed run under
`spParsedEnv` indeed stopped because a non-empty page's insert reported
zero new rows. -/
theorem drainUpstreamExhaustionIgnored_witness :
    SeaportSync.fetchOrdersLoop Relayer.spExhaustedEnv 5 none 0 = none
    ∧ ∃ (cursor' : Option String) (store' : Nat) (page : SeaportSync.Page),
        Relayer.spParsedEnv.fetch (SeaportSync.drainParams cursor') = .ok page
          ∧ page.orders ≠ []
          ∧ (Relayer.spParsedEnv.insert store'
              (page.orders.map (SeaportSync.handleOrder Relayer.spParsedEnv.parse))).1
            = 0 :=
  ⟨drainUpstreamExhaustionIgnored.2.2 Nat Relayer.spExhaustedEnv
      (fun _ => ⟨none, rfl⟩) 5 none 0,
   drainUpstreamExhaustionIgnored.1 Nat Relayer.spParsedEnv 1 none 0 _ 0 rfl⟩

/-- Claim C3: with page size 50, a successful fetch of exactly 49 orders
ends the loop right after that page, while a successful fetch of exactly
50 orders with `once = false` and `backfill = true` continues the loop at
the offset advanced by 50 — the next request carries `offset + 50`. -/
theorem offsetModeStopping :
    (∀ (env : OpenSeaSync.Env) (la lb : Nat) (b once : Bool)
        (maxo fuel offset n : Nat) (lcd : String)
        (orders : List OpenSeaSync.OpenSeaOrder),
      env.fetch (OpenSeaSync.buildFetchOrdersURL la lb once env.now offset 50)
          = .ok orders →
      orders.length = 49 →
        OpenSeaSync.fetchOrdersLoop env la lb b once 50 maxo (fuel + 1) offset n lcd
          = some (OpenSeaSync.pageEvents env once
                (OpenSeaSync.buildFetchOrdersURL la lb once env.now offset 50) orders,
              .ok (match orders.getLast? with
                   | some o => o.created_date
                   | none => lcd)))
  ∧ (∀ (env : OpenSeaSync.Env) (la lb maxo fuel offset n : Nat) (lcd : String)
        (orders : List OpenSeaSync.OpenSeaOrder),
      env.fetch (OpenSeaSync.buildFetchOrdersURL la lb false env.now offset 50)
          = .ok orders →
      orders.length = 50 →
        OpenSeaSync.fetchOrdersLoop env la lb true false 50 maxo (fuel + 1 + 1) offset n lcd
          = match OpenSeaSync.fetchOrdersLoop env la lb true false 50 maxo (fuel + 1)
                (offset + 50) (n + 50)
                (match orders.getLast? with
                 | some o => o.created_date
                 | none => lcd) with
            | none => none
            | some (evs', r) =>
              some (OpenSeaSync.pageEvents env false
                  (OpenSeaSync.buildFetchOrdersURL la lb false env.now offset 50) orders
                ++ evs', r))
  ∧ (∀ (env : OpenSeaSync.Env) (la lb maxo fuel offset n : Nat) (lcd : String)
        (orders : List OpenSeaSync.OpenSeaOrder)
        (evs : List (SyncEvent OpenSeaSync.FetchOrdersParams OpenSeaSync.StoredOrderRow))
        (r : OpenSeaSync.SyncResult),
      env.fetch (OpenSeaSync.buildFetchOrdersURL la lb false env.now offset 50)
          = .ok orders →
      orders.length = 50 →
      OpenSeaSync.fetchOrdersLoop env la lb true false 50 maxo (fuel + 1 + 1) offset n lcd
          = some (evs, r) →
        ∃ rest, requestedParams evs
          = OpenSeaSync.buildFetchOrdersURL la lb false env.now offset 50
            :: OpenSeaSync.buildFetchOrdersURL la lb false env.now (offset + 50) 50
            :: rest) := by
  refine ⟨?_, ?_, ?_⟩
  · intro env la lb b once maxo fuel offset n lcd orders hf hlen
    rw [OpenSeaSync.fetchOrdersLoop]
    rw [hf]
    have hdone : (once || decide (orders.length < 50)
        || (!b && decide (maxo ≤ n + orders.length))) = true := by
      simp [hlen]
    simp only [hdone, if_true]
  · intro env la lb maxo fuel offset n lcd orders hf hlen
    rw [OpenSeaSync.fetchOrdersLoop]
    rw [hf]
    simp only [hlen]
    have hdone : (false || decide ((50 : Nat) < 50)
        || (!true && decide (maxo ≤ n + 50))) = false := by simp
    rw [hdone]
    simp only [Bool.false_eq_true, if_false]
  · intro env la lb maxo fuel offset n lcd orders evs r hf hlen hrun
    rw [OpenSeaSync.fetchOrdersLoop] at hrun
    rw [hf] at hrun
    simp only [hlen] at hrun
    have hdone : (false || decide ((50 : Nat) < 50)
        || (!true && decide (maxo ≤ n + 50))) = false := by simp
    rw [hdone] at hrun
    simp only [Bool.false_eq_true, if_false] at hrun
    revert hrun
    split
    · intro hrun; exact absurd hrun (by simp)
    · intro hrun
      rename_i evs' r' hrec
      obtain ⟨rest, hrest⟩ := OpenSeaSync.fetchOrdersLoop_head env la lb true false
        50 maxo fuel (offset + 50) (n + 50) _ evs' r' hrec
      simp only [Option.some.injEq, Prod.mk.injEq] at hrun
      obtain ⟨h1, -⟩ := hrun
      subst h1
      refine ⟨requestedParams rest, ?_⟩
      rw [requestedParams_append, OpenSeaSync.pageEvents_requested, hrest]
      simp [requestedParams]



/-- Witness for C3: under `osPage49Env` a 49-order page at offset 0 stops
the loop after one page with `lastCreatedDate = "d1"`; under
`osTwoPageEnv` (a full page at offset 0) the backfill run's second request
carries offset 50. -/
theorem offsetModeStopping_witness :
    OpenSeaSync.fetchOrdersLoop Relayer.osPage49Env 0 0 false false 50 1000 1 0 0 "x"
        = some (OpenSeaSync.pageEvents Relayer.osPage49Env false
              (OpenSeaSync.buildFetchOrdersURL 0 0 false 7 0 50)
              (List.replicate 49 Relayer.osOrder),
            .ok "d1")
    ∧ ∃ (evs : List (SyncEvent OpenSeaSync.FetchOrdersParams OpenSeaSync.StoredOrderRow))
        (r : OpenSeaSync.SyncResult)
        (rest : List OpenSeaSync.FetchOrdersParams),
        OpenSeaSync.fetchOrdersLoop Relayer.osTwoPageEnv 0 0 true false 50 1000 2 0 0 ""
            = some (evs, r)
          ∧ requestedParams evs
            = OpenSeaSync.buildFetchOrdersURL 0 0 false 7 0 50
              :: OpenSeaSync.buildFetchOrdersURL 0 0 false 7 50 50 :: rest := by
  constructor
  · exact offsetModeStopping.1 Relayer.osPage49Env 0 0 false false 1000 0 0 0 "x"
      (List.replicate 49 Relayer.osOrder) rfl rfl
  · obtain ⟨rest, h⟩ := offsetModeStopping.2.2 Relayer.osTwoPageEnv 0 0 1000 0 0 0 ""
      (List.replicate 50 Relayer.osOrder) _ _ rfl rfl rfl
    exact ⟨_, _, rest, rfl, h⟩

/-- Claim C6: with `once = true` the offset-mode sync issues exactly one
page request and performs no one-second sleep, whatever the page's size or
the fetch's outcome; with `once = false`, any iteration that continues to
a next page puts the one-second sleep immediately before the next page's
request in the trace. -/
theorem onceModeSinglePageNoDelay :
    (∀ (env : OpenSeaSync.Env) (la lb : Nat) (b : Bool) (offset lim fuel : Nat),
      ∃ evs r,
        OpenSeaSync.fetchOrders env la lb b true offset lim (fuel + 1) = some (evs, r)
          ∧ requestedParams evs
            = [OpenSeaSync.buildFetchOrdersURL la lb true env.now offset lim]
          ∧ sleepCount evs = 0)
  ∧ (∀ (env : OpenSeaSync.Env) (la lb : Nat) (b : Bool)
        (maxo lim fuel offset n : Nat) (lcd : String)
        (orders : List OpenSeaSync.OpenSeaOrder)
        (evs : List (SyncEvent OpenSeaSync.FetchOrdersParams OpenSeaSync.StoredOrderRow))
        (r : OpenSeaSync.SyncResult),
      env.fetch (OpenSeaSync.buildFetchOrdersURL la lb false env.now offset lim)
          = .ok orders →
      (false || decide (orders.length < lim)
        || (!b && decide (maxo ≤ n + orders.length))) = false →
      OpenSeaSync.fetchOrdersLoop env la lb b false lim maxo (fuel + 1 + 1) offset n lcd
          = some (evs, r) →
        ∃ pre rest,
          evs = pre ++ SyncEvent.slept 1000
            :: SyncEvent.requested
                (OpenSeaSync.buildFetchOrdersURL la lb false env.now (offset + lim) lim)
            :: rest) := by
  constructor
  · intro env la lb b offset lim fuel
    unfold OpenSeaSync.fetchOrders
    rw [OpenSeaSync.fetchOrdersLoop]
    cases hf : env.fetch (OpenSeaSync.buildFetchOrdersURL la lb true env.now offset lim) with
    | error e =>
      cases b
      · exact ⟨_, _, rfl, by simp [requestedParams], by simp [sleepCount]⟩
      · exact ⟨_, _, rfl, by simp [requestedParams], by simp [sleepCount]⟩
    | ok orders =>
      refine ⟨OpenSeaSync.pageEvents env true
        (OpenSeaSync.buildFetchOrdersURL la lb true env.now offset lim) orders,
        _, rfl, ?_, ?_⟩
      · exact OpenSeaSync.pageEvents_requested env true _ orders
      · rw [OpenSeaSync.pageEvents_sleepCount]
        rfl
  · intro env la lb b maxo lim fuel offset n lcd orders evs r hf hdone hrun
    rw [OpenSeaSync.fetchOrdersLoop] at hrun
    rw [hf] at hrun
    simp only at hrun
    rw [hdone] at hrun
    simp only [Bool.false_eq_true, if_false] at hrun
    revert hrun
    split
    · intro hrun; exact absurd hrun (by simp)
    · intro hrun
      rename_i evs' r' hrec
      obtain ⟨rest, hrest⟩ := OpenSeaSync.fetchOrdersLoop_head env la lb b false
        lim maxo fuel (offset + lim) _ _ evs' r' hrec
      obtain ⟨pre, hpre⟩ := OpenSeaSync.pageEvents_sleep_last env
        (OpenSeaSync.buildFetchOrdersURL la lb false env.now offset lim) orders
      simp only [Option.some.injEq, Prod.mk.injEq] at hrun
      obtain ⟨h1, -⟩ := hrun
      subst h1
      refine ⟨pre, rest, ?_⟩
      rw [hpre, hrest]
      simp

/-- Witness for C6: under `osOnePageEnv` a once-mode call issues one
request and zero sleeps; under `osTwoPageEnv` the backfill run's trace
has the one-second sleep immediately before the offset-50 request. -/
theorem onceModeSinglePageNoDelay_witness :
    (∃ evs r,
      OpenSeaSync.fetchOrders Relayer.osOnePageEnv 1 2 false true 5 50 1 = some (evs, r)
        ∧ requestedParams evs = [OpenSeaSync.buildFetchOrdersURL 1 2 true 7 5 50]
        ∧ sleepCount evs = 0)
    ∧ (∃ pre rest evs r,
      OpenSeaSync.fetchOrdersLoop Relayer.osTwoPageEnv 0 0 true false 50 1000 2 0 0 ""
          = some (evs, r)
        ∧ evs = pre ++ SyncEvent.slept 1000
            :: SyncEvent.requested (OpenSeaSync.buildFetchOrdersURL 0 0 false 7 50 50)
            :: rest) := by
  constructor
  · exact onceModeSinglePageNoDelay.1 Relayer.osOnePageEnv 1 2 false 5 50 0
  · obtain ⟨pre, rest, h⟩ := onceModeSinglePageNoDelay.2 Relayer.osTwoPageEnv 0 0 true
      1000 50 0 0 0 "" (List.replicate 50 Relayer.osOrder) _ _ rfl (by decide) rfl
    exact ⟨pre, rest, _, _, rfl, h⟩

/-- Claim C7 as amended: every row an entry point hands to the store is
built by that entry point's `handleOrder`, and its `hash` is the verbatim
`prefixed_hash` in the offset-mode sync, the lower-cased `order_hash` in
the continuous drain, and the verbatim `order_hash` in the bounded window
fetch. -/
theorem hashFieldPolicy :
    (∀ (env : OpenSeaSync.Env) (la lb : Nat) (b once : Bool)
        (lim maxo fuel offset n : Nat) (lcd : String)
        (evs : List (SyncEvent OpenSeaSync.FetchOrdersParams OpenSeaSync.StoredOrderRow))
        (r : OpenSeaSync.SyncResult),
      OpenSeaSync.fetchOrdersLoop env la lb b once lim maxo fuel offset n lcd
          = some (evs, r) →
      ∀ rows ∈ insertedBatches evs, ∀ row ∈ rows,
        ∃ o : OpenSeaSync.OpenSeaOrder,
          row = OpenSeaSync.handleOrder env.parse once o
            ∧ row.hash = o.prefixed_hash)
  ∧ (∀ (σ : Type) (env : SeaportSync.Env σ) (fuel : Nat) (cursor : Option String)
        (store : σ)
        (evs : List (SyncEvent SeaportSync.FetchOrdersParams SeaportSync.StoredOrderRow))
        (st : σ) (r : SeaportSync.DrainResult),
      SeaportSync.fetchOrdersLoop env fuel cursor store = some (evs, st, r) →
      ∀ rows ∈ insertedBatches evs, ∀ row ∈ rows,
        ∃ o : SeaportSync.SeaportOrder,
          row = SeaportSync.handleOrder env.parse o
            ∧ row.hash = Relayer.lowerCase o.order_hash)
  ∧ (∀ (σ : Type) (env : SeaportSync.Env σ) (fromT toT : Option Nat)
        (cursor : Option String) (store : σ),
      ∀ rows ∈ insertedBatches (SeaportSync.fetchAllOrders env fromT toT cursor store).1,
      ∀ row ∈ rows,
        ∃ o : SeaportSync.SeaportOrder,
          row = SeaportSync.handleOrderAll env.parse o
            ∧ row.hash = o.order_hash) := by
  refine ⟨?_, ?_, ?_⟩
  · intro env la lb b once lim maxo fuel offset n lcd evs r h rows hrows row hrow
    obtain ⟨src, hsrc⟩ := OpenSeaSync.fetchOrdersLoop_inserted env la lb b once lim maxo
      fuel offset n lcd evs r h rows hrows
    subst hsrc
    obtain ⟨o, -, rfl⟩ := List.mem_map.mp hrow
    exact ⟨o, rfl, rfl⟩
  · intro σ env fuel cursor store evs st r h rows hrows row hrow
    obtain ⟨src, hsrc⟩ := SeaportSync.drainLoop_inserted env fuel cursor store evs st r
      h rows hrows
    subst hsrc
    obtain ⟨o, -, rfl⟩ := List.mem_map.mp hrow
    exact ⟨o, rfl, rfl⟩
  · intro σ env fromT toT cursor store rows hrows row hrow
    obtain ⟨src, hsrc⟩ := SeaportSync.fetchAllOrders_inserted env fromT toT cursor store
      rows hrows
    subst hsrc
    obtain ⟨o, -, rfl⟩ := List.mem_map.mp hrow
    exact ⟨o, rfl, rfl⟩

/-- Counterexample to C7 as stated: the offset-mode sync run against
`osOnePageEnv` persists the row for an order whose identifier `0xAB`
contains upper-case letters verbatim — the stored hash is not the
lower-casing of the upstream identifier. -/
theorem hashLowerCasing_counterexample :
    (OpenSeaSync.fetchOrders Relayer.osOnePageEnv 0 0 false true 0 50 1).map
        (fun x => insertedBatches x.1)
      = some [[Relayer.osRow]]
    ∧ Relayer.osOrder.prefixed_hash = "0xAB"
    ∧ Relayer.osRow.hash = "0xAB"
    ∧ Relayer.osRow.hash ≠ Relayer.lowerCase "0xAB" := by
  refine ⟨rfl, rfl, rfl, by decide⟩

/-- Witness for C7: the row stored by the once-mode run against
`osOnePageEnv` is `handleOrder` of some fetched order and carries that
order's verbatim `prefixed_hash`. -/
theorem hashFieldPolicy_witness :
    ∃ o : OpenSeaSync.OpenSeaOrder,
      Relayer.osRow = OpenSeaSync.handleOrder Relayer.osOnePageEnv.parse true o
        ∧ Relayer.osRow.hash = o.prefixed_hash := by
  have h := hashFieldPolicy.1 Relayer.osOnePageEnv 0 0 false true 50 1000 1 0 0 "" _ _ rfl
  exact h [Relayer.osRow] (by decide) Relayer.osRow (by decide)

/-- Claim C2 as amended: every row an entry point hands to the store comes
from `handleOrder` on a fetched order, and its `target` is: the lower-cased
raw fallback (OpenSea's `order.target`, Seaport's first offered token) when
parse returns nothing; the lower-cased parsed contract when parse succeeds
and `getInfo()` yields it — except that the continuous drain falls back
when the contract lower-cases to the empty string, the bounded window
fetch falls back when the contract is the empty string, and all three fall
back when `getInfo()` yields nothing. -/
theorem targetFallbackPolicy :
    (∀ (env : OpenSeaSync.Env) (la lb : Nat) (b once : Bool)
        (lim maxo fuel offset n : Nat) (lcd : String)
        (evs : List (SyncEvent OpenSeaSync.FetchOrdersParams OpenSeaSync.StoredOrderRow))
        (r : OpenSeaSync.SyncResult),
      OpenSeaSync.fetchOrdersLoop env la lb b once lim maxo fuel offset n lcd
          = some (evs, r) →
      ∀ rows ∈ insertedBatches evs, ∀ row ∈ rows,
        ∃ o : OpenSeaSync.OpenSeaOrder,
          row = OpenSeaSync.handleOrder env.parse once o
            ∧ (env.parse o = none → row.target = Relayer.lowerCase o.target)
            ∧ (∀ parsed, env.parse o = some parsed →
                (parsed.info = none → row.target = Relayer.lowerCase o.target)
                ∧ (∀ info, parsed.info = some info →
                    row.target = Relayer.lowerCase info.contract)))
  ∧ (∀ (σ : Type) (env : SeaportSync.Env σ) (fuel : Nat) (cursor : Option String)
        (store : σ)
        (evs : List (SyncEvent SeaportSync.FetchOrdersParams SeaportSync.StoredOrderRow))
        (st : σ) (r : SeaportSync.DrainResult),
      SeaportSync.fetchOrdersLoop env fuel cursor store = some (evs, st, r) →
      ∀ rows ∈ insertedBatches evs, ∀ row ∈ rows,
        ∃ o : SeaportSync.SeaportOrder,
          row = SeaportSync.handleOrder env.parse o
            ∧ (env.parse o = none → row.target = Relayer.lowerCase o.offer0_token)
            ∧ (∀ parsed, env.parse o = some parsed →
                (parsed.info = none → row.target = Relayer.lowerCase o.offer0_token)
                ∧ (∀ info, parsed.info = some info →
                    (Relayer.lowerCase info.contract = "" →
                      row.target = Relayer.lowerCase o.offer0_token)
                    ∧ (Relayer.lowerCase info.contract ≠ "" →
                      row.target = Relayer.lowerCase info.contract))))
  ∧ (∀ (σ : Type) (env : SeaportSync.Env σ) (fromT toT : Option Nat)
        (cursor : Option String) (store : σ),
      ∀ rows ∈ insertedBatches (SeaportSync.fetchAllOrders env fromT toT cursor store).1,
      ∀ row ∈ rows,
        ∃ o : SeaportSync.SeaportOrder,
          row = SeaportSync.handleOrderAll env.parse o
            ∧ (env.parse o = none → row.target = Relayer.lowerCase o.offer0_token)
            ∧ (∀ parsed, env.parse o = some parsed →
                (parsed.info = none → row.target = Relayer.lowerCase o.offer0_token)
                ∧ (∀ info, parsed.info = some info →
                    (info.contract = "" →
                      row.target = Relayer.lowerCase o.offer0_token)
                    ∧ (info.contract ≠ "" →
                      row.target = Relayer.lowerCase info.contract)))) := by
  refine ⟨?_, ?_, ?_⟩
  · intro env la lb b once lim maxo fuel offset n lcd evs r h rows hrows row hrow
    obtain ⟨src, hsrc⟩ := OpenSeaSync.fetchOrdersLoop_inserted env la lb b once lim maxo
      fuel offset n lcd evs r h rows hrows
    subst hsrc
    obtain ⟨o, -, rfl⟩ := List.mem_map.mp hrow
    exact ⟨o, rfl, (OpenSeaSync.handleOrder_target_cases env.parse once o).1,
      (OpenSeaSync.handleOrder_target_cases env.parse once o).2⟩
  · intro σ env fuel cursor store evs st r h rows hrows row hrow
    obtain ⟨src, hsrc⟩ := SeaportSync.drainLoop_inserted env fuel cursor store evs st r
      h rows hrows
    subst hsrc
    obtain ⟨o, -, rfl⟩ := List.mem_map.mp hrow
    exact ⟨o, rfl, (SeaportSync.drain_handleOrder_target_cases env.parse o).1,
      (SeaportSync.drain_handleOrder_target_cases env.parse o).2⟩
  · intro σ env fromT toT cursor store rows hrows row hrow
    obtain ⟨src, hsrc⟩ := SeaportSync.fetchAllOrders_inserted env fromT toT cursor store
      rows hrows
    subst hsrc
    obtain ⟨o, -, rfl⟩ := List.mem_map.mp hrow
    exact ⟨o, rfl, (SeaportSync.window_handleOrder_target_cases env.parse o).1,
      (SeaportSync.window_handleOrder_target_cases env.parse o).2⟩

/-- Counterexample to C2 as stated: in the continuous drain run against
`spEmptyContractEnv`, the order's parse succeeds with contract `""`, yet
the stored row's target is the lower-cased fallback token `0xfb`, not the
lower-cased parsed contract. -/
theorem targetParsedContract_counterexample :
    (SeaportSync.fetchOrders Relayer.spEmptyContractEnv 0 1).map
        (fun x => insertedBatches x.1)
      = some [[Relayer.spEmptyContractRow]]
    ∧ Relayer.spEmptyContractEnv.parse Relayer.spOrder
      = some { info := some { contract := "" } }
    ∧ Relayer.spEmptyContractRow.target = "0xfb"
    ∧ Relayer.spEmptyContractRow.target ≠ Relayer.lowerCase "" := by
  refine ⟨rfl, rfl, rfl, by decide⟩

/-- Witness for C2: the row stored by the drain run against `spParsedEnv`
(parse succeeded with contract `0xC`) is `handleOrder` of some fetched
order, and its target is the lower-cased contract `0xc`. -/
theorem targetFallbackPolicy_witness :
    ∃ o : SeaportSync.SeaportOrder,
      Relayer.spParsedRow = SeaportSync.handleOrder Relayer.spParsedEnv.parse o
        ∧ Relayer.spParsedRow.target = "0xc" := by
  have h := targetFallbackPolicy.2.1 Nat Relayer.spParsedEnv 1 none 0 _ _ _ rfl
  obtain ⟨o, ho, -⟩ := h [Relayer.spParsedRow] (by decide) Relayer.spParsedRow (by decide)
  exact ⟨o, ho, rfl⟩
